import Mathlib

/-
  Shallow embedding of the trampoline SDK's mock-chain cell store, transaction
  resolver, query provider and generator/middleware pipeline
  (src/sdk/src/chain/mock_chain/mod.rs, src/sdk/src/contract/generator/mod.rs,
  src/sdk/src/contract/mod.rs).

  Modelling conventions:
  - `HashMap` is modelled as an association list with key-replacing insert;
    lookups and inserts are the only map operations the embedded code uses.
  - Byte strings are `List Nat`; the blake2b hashes (`CellOutput::calc_data_hash`,
    `Script::calc_script_hash`) are modelled by fixed computable encodings,
    since the embedded code only relies on them being deterministic functions.
  - `random_hash()` is modelled by a fresh-counter supply threaded through the
    state (field `fresh`); well-formed states (`MockChain.WF`) are those whose
    stored outpoints all predate the counter, which is the probabilistic
    freshness guarantee of the random supply.
  - Rust panics (`unwrap`, `panic!`, `todo!`) are modelled as `Except.error`
    with the panic message; `Option` returns stay `Option`.
  - Fields of the source `MockChain` that no embedded operation touches
    (headers, epoches, genesis_info, debug flag, captured messages — used only
    by the external CKB-VM verification path) are elided.
-/

deriving instance DecidableEq for Except

namespace Trampoline

abbrev Bytes := List Nat
abbrev Hash := Nat

/-- Outpoint: (originating transaction hash, output index). -/
structure OutPoint where
  txHash : Hash
  index : Nat
deriving DecidableEq, Repr

inductive ScriptHashType
  | data
  | ty
  | data1
deriving DecidableEq, Repr

structure Script where
  codeHash : Hash
  hashType : ScriptHashType
  args : Bytes
deriving DecidableEq, Repr

/-- The all-defaults packed script (zero code hash, data hash type, empty args). -/
def Script.defaultScript : Script := ⟨0, ScriptHashType.data, []⟩

structure CellOutput where
  capacity : Nat
  lock : Script
  typ : Option Script
deriving DecidableEq, Repr

abbrev CellOutputWithData := CellOutput × Bytes

/-- Model of `CellOutput::calc_data_hash` (blake2b over the data bytes):
a fixed deterministic encoding of the byte string. -/
def calcDataHash (b : Bytes) : Hash :=
  b.foldl (fun a x => Nat.pair a x + 1) 0

def hashTypeCode : ScriptHashType → Nat
  | ScriptHashType.data => 0
  | ScriptHashType.ty => 1
  | ScriptHashType.data1 => 2

/-- Model of `Script::calc_script_hash` (blake2b over the serialized script):
a fixed deterministic encoding of the (code-hash, hash-type, args) triple. -/
def calcScriptHash (s : Script) : Hash :=
  Nat.pair (Nat.pair s.codeHash (hashTypeCode s.hashType)) (calcDataHash s.args) + 1

/-- Association-list lookup, modelling `HashMap::get`. -/
def lookupA {α β : Type} [DecidableEq α] (k : α) : List (α × β) → Option β
  | [] => none
  | (k2, v) :: t => if k = k2 then some v else lookupA k t

/-- Association-list insert, modelling `HashMap::insert` (replaces on key hit). -/
def insertA {α β : Type} [DecidableEq α] (k : α) (v : β) : List (α × β) → List (α × β)
  | [] => [(k, v)]
  | (k2, v2) :: t => if k = k2 then (k, v) :: t else (k2, v2) :: insertA k v t

theorem lookupA_insertA_self {α β : Type} [DecidableEq α] (k : α) (v : β)
    (l : List (α × β)) : lookupA k (insertA k v l) = some v := by
  induction l with
  | nil => simp [insertA, lookupA]
  | cons h t ih =>
      obtain ⟨k2, v2⟩ := h
      by_cases hk : k = k2
      · simp [insertA, hk, lookupA]
      · simp [insertA, hk, lookupA, ih]

theorem lookupA_insertA_ne {α β : Type} [DecidableEq α] (k k2 : α) (v : β)
    (l : List (α × β)) (hne : k ≠ k2) :
    lookupA k (insertA k2 v l) = lookupA k l := by
  induction l with
  | nil => simp [insertA, lookupA, hne]
  | cons h t ih =>
      obtain ⟨k3, v3⟩ := h
      by_cases hk : k2 = k3
      · subst hk
        simp [insertA, lookupA, hne]
      · by_cases hk3 : k = k3
        · simp [insertA, hk, lookupA, hk3]
        · simp [insertA, hk, lookupA, hk3, ih]

theorem length_insertA_of_not_mem {α β : Type} [DecidableEq α] (k : α) (v : β)
    (l : List (α × β)) (h : ∀ p ∈ l, p.1 ≠ k) :
    (insertA k v l).length = l.length + 1 := by
  induction l with
  | nil => simp [insertA]
  | cons hd t ih =>
      obtain ⟨k2, v2⟩ := hd
      have hk : k ≠ k2 := fun he => (h (k2, v2) (by simp)) (by simp [he.symm])
      simp only [insertA, if_neg hk, List.length_cons]
      rw [ih (fun p hp => h p (by simp [hp]))]

theorem mem_insertA {α β : Type} [DecidableEq α] (k : α) (v : β)
    (l : List (α × β)) (p : α × β) (hp : p ∈ insertA k v l) :
    p = (k, v) ∨ p ∈ l := by
  induction l with
  | nil => simpa [insertA] using hp
  | cons hd t ih =>
      obtain ⟨k2, v2⟩ := hd
      by_cases hk : k = k2
      · simp only [insertA, if_pos hk, List.mem_cons] at hp
        rcases hp with h1 | h2
        · exact Or.inl h1
        · exact Or.inr (by simp [h2])
      · simp only [insertA, if_neg hk, List.mem_cons] at hp
        rcases hp with h1 | h2
        · exact Or.inr (by simp [h1])
        · rcases ih h2 with h3 | h4
          · exact Or.inl h3
          · exact Or.inr (by simp [h4])

theorem lookupA_mem {α β : Type} [DecidableEq α] (k : α) (v : β)
    (l : List (α × β)) (h : lookupA k l = some v) : (k, v) ∈ l := by
  induction l with
  | nil => simp [lookupA] at h
  | cons hd t ih =>
      obtain ⟨k2, v2⟩ := hd
      by_cases hk : k = k2
      · simp only [lookupA, if_pos hk] at h
        subst hk
        injection h with h3
        subst h3
        simp
      · simp only [lookupA, if_neg hk] at h
        exact List.mem_cons_of_mem _ (ih h)

/-- Model of `TransactionInfo` (block number, epoch, block hash, tx index). -/
structure TransactionInfo where
  blockNumber : Nat
  blockEpoch : Nat
  blockHash : Hash
  txIndex : Nat
deriving DecidableEq, Repr

/-- The mock chain state (`MockChain` in src/sdk/src/chain/mock_chain/mod.rs).
`fresh` models the random outpoint supply; see the header comment. -/
structure MockChain where
  cells : List (OutPoint × CellOutputWithData)
  outpoint_txs : List (OutPoint × TransactionInfo)
  cells_by_data_hash : List (Hash × OutPoint)
  cells_by_lock_hash : List (Hash × List OutPoint)
  cells_by_type_hash : List (Hash × List OutPoint)
  default_lock : Option OutPoint
  fresh : Nat
deriving DecidableEq, Repr

def MockChain.empty : MockChain := ⟨[], [], [], [], [], none, 0⟩

/-- Well-formed state: every stored outpoint predates the fresh supply, so the
next fresh outpoint is new. This is the freshness guarantee of `random_hash`. -/
def MockChain.WF (c : MockChain) : Prop :=
  ∀ p ∈ c.cells, p.1.txHash < c.fresh

instance (c : MockChain) : Decidable c.WF :=
  inferInstanceAs (Decidable (∀ p ∈ c.cells, p.1.txHash < c.fresh))

/-- `MockChain::deploy_cell_with_data` (mod.rs lines 114-136). -/
def MockChain.deploy_cell_with_data (c : MockChain) (data : Bytes) :
    OutPoint × MockChain :=
  let data_hash := calcDataHash data
  match lookupA data_hash c.cells_by_data_hash with
  | some out_point => (out_point, c)
  | none =>
      let out_point : OutPoint := ⟨c.fresh, 0⟩
      let cell : CellOutput :=
        { capacity := data.length
          lock := Script.defaultScript
          typ := some { codeHash := data_hash, hashType := ScriptHashType.data, args := [] } }
      (out_point,
        { c with
            cells := insertA out_point (cell, data) c.cells
            cells_by_data_hash := insertA data_hash out_point c.cells_by_data_hash
            fresh := c.fresh + 1 })

/-- `MockChain::get_cells_by_lock_hash` (mod.rs lines 243-245). -/
def MockChain.get_cells_by_lock_hash (c : MockChain) (h : Hash) : Option (List OutPoint) :=
  lookupA h c.cells_by_lock_hash

/-- `MockChain::get_cells_by_type_hash` (mod.rs lines 247-249). -/
def MockChain.get_cells_by_type_hash (c : MockChain) (h : Hash) : Option (List OutPoint) :=
  lookupA h c.cells_by_type_hash

/-- `MockChain::get_cell_by_data_hash` (mod.rs lines 187-189). -/
def MockChain.get_cell_by_data_hash (c : MockChain) (h : Hash) : Option OutPoint :=
  lookupA h c.cells_by_data_hash

/-- `MockChain::get_cell` (mod.rs lines 222-224). -/
def MockChain.get_cell (c : MockChain) (op : OutPoint) : Option CellOutputWithData :=
  lookupA op c.cells

/-- `MockChain::create_cell_with_outpoint` (mod.rs lines 197-220). Note that both
the primary store insert and the data-hash index insert are unconditional. -/
def MockChain.create_cell_with_outpoint (c : MockChain) (outp : OutPoint)
    (cell : CellOutput) (data : Bytes) : MockChain :=
  let data_hash := calcDataHash data
  let c1 := { c with
      cells_by_data_hash := insertA data_hash outp c.cells_by_data_hash
      cells := insertA outp (cell, data) c.cells }
  let lh := calcScriptHash cell.lock
  let c2 := { c1 with
      cells_by_lock_hash :=
        insertA lh (((c1.get_cells_by_lock_hash lh).getD []) ++ [outp]) c1.cells_by_lock_hash }
  match cell.typ with
  | some s =>
      let th := calcScriptHash s
      { c2 with
          cells_by_type_hash :=
            insertA th (((c2.get_cells_by_type_hash th).getD []) ++ [outp]) c2.cells_by_type_hash }
  | none => c2

/-- `MockChain::deploy_cell_output` (mod.rs lines 138-147). -/
def MockChain.deploy_cell_output (c : MockChain) (data : Bytes) (output : CellOutput) :
    OutPoint × MockChain :=
  match lookupA (calcDataHash data) c.cells_by_data_hash with
  | some out_point => (out_point, c)
  | none =>
      let out_point : OutPoint := ⟨c.fresh, 0⟩
      (out_point, MockChain.create_cell_with_outpoint { c with fresh := c.fresh + 1 } out_point output data)

/-- `MockChain::create_cell` (mod.rs lines 191-195): fresh random outpoint. -/
def MockChain.create_cell (c : MockChain) (cell : CellOutput) (data : Bytes) :
    OutPoint × MockChain :=
  let outpoint : OutPoint := ⟨c.fresh, 0⟩
  (outpoint, MockChain.create_cell_with_outpoint { c with fresh := c.fresh + 1 } outpoint cell data)

/-- `MockChain::receive_tx` (mod.rs lines 439-456), Ok branch: after the external
CKB-VM verifier accepts the transaction, every output is stored at
(tx hash, output index). The Err branch of the source is a `todo!()` panic. -/
def MockChain.receive_tx_outputs (c : MockChain) (txHash : Hash)
    (outs : List CellOutputWithData) : MockChain :=
  (outs.foldl
    (fun (p : MockChain × Nat) out =>
      (p.1.create_cell_with_outpoint ⟨txHash, p.2⟩ out.1 out.2, p.2 + 1))
    (c, 0)).1

/-- `MockChain::get_default_script_outpoint` (mod.rs lines 149-151); the source
calls `unwrap`, so the missing case is a panic. -/
def unwrapMsg : String := "called Option::unwrap() on a None value"

def MockChain.get_default_script_outpoint (c : MockChain) : Except String OutPoint :=
  match c.default_lock with
  | some op => Except.ok op
  | none => Except.error unwrapMsg

/-- `MockChain::default` (mod.rs lines 62-87): starts from the all-empty state
and deploys the always-success code blob as the default lock. The blob itself is
an externally supplied static binary, so it is a parameter here. -/
def MockChain.mkDefault (alwaysSuccess : Bytes) : MockChain :=
  let p := MockChain.empty.deploy_cell_with_data alwaysSuccess
  { p.2 with default_lock := some p.1 }

/- Projection lemmas for `create_cell_with_outpoint`. -/

theorem create_cell_with_outpoint_cells (c : MockChain) (outp : OutPoint)
    (cell : CellOutput) (data : Bytes) :
    (c.create_cell_with_outpoint outp cell data).cells = insertA outp (cell, data) c.cells := by
  cases h : cell.typ <;> simp [MockChain.create_cell_with_outpoint, h]

theorem create_cell_with_outpoint_data_hash (c : MockChain) (outp : OutPoint)
    (cell : CellOutput) (data : Bytes) :
    (c.create_cell_with_outpoint outp cell data).cells_by_data_hash
      = insertA (calcDataHash data) outp c.cells_by_data_hash := by
  cases h : cell.typ <;> simp [MockChain.create_cell_with_outpoint, h]

theorem create_cell_with_outpoint_fresh (c : MockChain) (outp : OutPoint)
    (cell : CellOutput) (data : Bytes) :
    (c.create_cell_with_outpoint outp cell data).fresh = c.fresh := by
  cases h : cell.typ <;> simp [MockChain.create_cell_with_outpoint, h]

/- Well-formedness is preserved by the store operations. -/

theorem wf_create_cell_with_outpoint (c : MockChain) (outp : OutPoint)
    (cell : CellOutput) (data : Bytes) (hwf : c.WF) (hop : outp.txHash < c.fresh) :
    (c.create_cell_with_outpoint outp cell data).WF := by
  intro p hp
  rw [create_cell_with_outpoint_fresh]
  rw [create_cell_with_outpoint_cells] at hp
  rcases mem_insertA _ _ _ _ hp with h1 | h2
  · subst h1
    exact hop
  · exact hwf p h2

theorem wf_deploy_cell_with_data (c : MockChain) (b : Bytes) (hwf : c.WF) :
    (c.deploy_cell_with_data b).2.WF := by
  cases hl : lookupA (calcDataHash b) c.cells_by_data_hash with
  | some op =>
      simpa [MockChain.deploy_cell_with_data, hl] using hwf
  | none =>
      intro p hp
      simp only [MockChain.deploy_cell_with_data, hl] at hp ⊢
      rcases mem_insertA _ _ _ _ hp with h1 | h2
      · subst h1
        exact Nat.lt_succ_self _
      · exact Nat.lt_succ_of_lt (hwf p h2)

theorem wf_deploy_cell_output (c : MockChain) (b : Bytes) (out : CellOutput) (hwf : c.WF) :
    (c.deploy_cell_output b out).2.WF := by
  cases hl : lookupA (calcDataHash b) c.cells_by_data_hash with
  | some op =>
      simpa [MockChain.deploy_cell_output, hl] using hwf
  | none =>
      simp only [MockChain.deploy_cell_output, hl]
      apply wf_create_cell_with_outpoint
      · intro p hp
        exact Nat.lt_succ_of_lt (hwf p hp)
      · exact Nat.lt_succ_self _

/- A bound reference keeps its cell, and a data-hash index entry keeps its
reference, across the deploy operations. -/

theorem deploy_cell_with_data_preserves_cell (c : MockChain) (b : Bytes)
    (r : OutPoint) (cd : CellOutputWithData) (hwf : c.WF)
    (h : lookupA r c.cells = some cd) :
    lookupA r (c.deploy_cell_with_data b).2.cells = some cd := by
  cases hl : lookupA (calcDataHash b) c.cells_by_data_hash with
  | some op => simpa [MockChain.deploy_cell_with_data, hl] using h
  | none =>
      simp only [MockChain.deploy_cell_with_data, hl]
      have hne : r ≠ (⟨c.fresh, 0⟩ : OutPoint) := by
        intro he
        have := hwf (r, cd) (lookupA_mem _ _ _ h)
        rw [he] at this
        exact Nat.lt_irrefl _ this
      rw [lookupA_insertA_ne _ _ _ _ hne]
      exact h

theorem deploy_cell_with_data_preserves_index (c : MockChain) (b : Bytes)
    (h : Hash) (r : OutPoint) (hidx : lookupA h c.cells_by_data_hash = some r) :
    lookupA h (c.deploy_cell_with_data b).2.cells_by_data_hash = some r := by
  cases hl : lookupA (calcDataHash b) c.cells_by_data_hash with
  | some op => simpa [MockChain.deploy_cell_with_data, hl] using hidx
  | none =>
      simp only [MockChain.deploy_cell_with_data, hl]
      have hne : h ≠ calcDataHash b := by
        intro he
        rw [he, hl] at hidx
        exact Option.noConfusion hidx
      rw [lookupA_insertA_ne _ _ _ _ hne]
      exact hidx

theorem deploy_cell_output_preserves_cell (c : MockChain) (b : Bytes)
    (out : CellOutput) (r : OutPoint) (cd : CellOutputWithData) (hwf : c.WF)
    (h : lookupA r c.cells = some cd) :
    lookupA r (c.deploy_cell_output b out).2.cells = some cd := by
  cases hl : lookupA (calcDataHash b) c.cells_by_data_hash with
  | some op => simpa [MockChain.deploy_cell_output, hl] using h
  | none =>
      simp only [MockChain.deploy_cell_output, hl]
      rw [create_cell_with_outpoint_cells]
      have hne : r ≠ (⟨c.fresh, 0⟩ : OutPoint) := by
        intro he
        have := hwf (r, cd) (lookupA_mem _ _ _ h)
        rw [he] at this
        exact Nat.lt_irrefl _ this
      rw [lookupA_insertA_ne _ _ _ _ hne]
      exact h

theorem deploy_cell_output_preserves_index (c : MockChain) (b : Bytes)
    (out : CellOutput) (h : Hash) (r : OutPoint)
    (hidx : lookupA h c.cells_by_data_hash = some r) :
    lookupA h (c.deploy_cell_output b out).2.cells_by_data_hash = some r := by
  cases hl : lookupA (calcDataHash b) c.cells_by_data_hash with
  | some op => simpa [MockChain.deploy_cell_output, hl] using hidx
  | none =>
      simp only [MockChain.deploy_cell_output, hl]
      rw [create_cell_with_outpoint_data_hash]
      have hne : h ≠ calcDataHash b := by
        intro he
        rw [he, hl] at hidx
        exact Option.noConfusion hidx
      rw [lookupA_insertA_ne _ _ _ _ hne]
      exact hidx

/-- A sequence of content-addressed deploy operations
(`deploy_cell_with_data` / `deploy_cell_output`). -/
inductive DeployOp
  | withData (data : Bytes)
  | withOutput (data : Bytes) (output : CellOutput)

def applyDeploy (c : MockChain) : DeployOp → MockChain
  | DeployOp.withData d => (c.deploy_cell_with_data d).2
  | DeployOp.withOutput d out => (c.deploy_cell_output d out).2

def applyDeploys (c : MockChain) : List DeployOp → MockChain
  | [] => c
  | op :: t => applyDeploys (applyDeploy c op) t

theorem applyDeploy_wf (c : MockChain) (op : DeployOp) (hwf : c.WF) :
    (applyDeploy c op).WF := by
  cases op with
  | withData d => exact wf_deploy_cell_with_data c d hwf
  | withOutput d out => exact wf_deploy_cell_output c d out hwf

theorem applyDeploy_preserves_cell (c : MockChain) (op : DeployOp)
    (r : OutPoint) (cd : CellOutputWithData) (hwf : c.WF)
    (h : lookupA r c.cells = some cd) :
    lookupA r (applyDeploy c op).cells = some cd := by
  cases op with
  | withData d => exact deploy_cell_with_data_preserves_cell c d r cd hwf h
  | withOutput d out => exact deploy_cell_output_preserves_cell c d out r cd hwf h

theorem applyDeploy_preserves_index (c : MockChain) (op : DeployOp)
    (h : Hash) (r : OutPoint) (hidx : lookupA h c.cells_by_data_hash = some r) :
    lookupA h (applyDeploy c op).cells_by_data_hash = some r := by
  cases op with
  | withData d => exact deploy_cell_with_data_preserves_index c d h r hidx
  | withOutput d out => exact deploy_cell_output_preserves_index c d out h r hidx

/- Claim C1 -/

/-- Claim C1, counterexample: the claim quantifies over every store state, but
on a state that already contains the content (here `[1]` was already deployed),
the two further `deploy_cell_with_data [1]` calls grow the store by zero, not by
exactly one. The idempotent-reference part still holds, as the last conjunct
shows. -/
def growthChain : MockChain := (MockChain.empty.deploy_cell_with_data [1]).2

theorem deploy_growth_counterexample :
    ((growthChain.deploy_cell_with_data [1]).2.deploy_cell_with_data [1]).2.cells.length
        = growthChain.cells.length ∧
    growthChain.cells.length = 1 ∧
    ((growthChain.deploy_cell_with_data [1]).2.deploy_cell_with_data [1]).1
        = (growthChain.deploy_cell_with_data [1]).1 := by decide

/-- Claim C1 (amended): on a well-formed store, a second
`deploy_cell_with_data b` with identical bytes returns the same reference as
the first call and leaves the store unchanged; and when the content hash is not
already indexed, the primary store grows by exactly one cell over both calls
(it grows by zero when the content is already present). -/
theorem deploy_idempotent_amended (c : MockChain) (b : Bytes) (hwf : c.WF) :
    ((c.deploy_cell_with_data b).2.deploy_cell_with_data b).1
        = (c.deploy_cell_with_data b).1 ∧
    ((c.deploy_cell_with_data b).2.deploy_cell_with_data b).2
        = (c.deploy_cell_with_data b).2 ∧
    (lookupA (calcDataHash b) c.cells_by_data_hash = none →
      (c.deploy_cell_with_data b).2.cells.length = c.cells.length + 1) := by
  cases hl : lookupA (calcDataHash b) c.cells_by_data_hash with
  | some op =>
      refine ⟨?_, ?_, ?_⟩
      · simp [MockChain.deploy_cell_with_data, hl]
      · simp [MockChain.deploy_cell_with_data, hl]
      · intro hnone
        exact Option.noConfusion hnone
  | none =>
      refine ⟨?_, ?_, ?_⟩
      · simp [MockChain.deploy_cell_with_data, hl, lookupA_insertA_self]
      · simp [MockChain.deploy_cell_with_data, hl, lookupA_insertA_self]
      · intro _
        simp only [MockChain.deploy_cell_with_data, hl]
        apply length_insertA_of_not_mem
        intro p hp he
        have := hwf p hp
        rw [he] at this
        exact Nat.lt_irrefl _ this

theorem deploy_idempotent_witness :
    MockChain.WF MockChain.empty ∧
    (((MockChain.empty.deploy_cell_with_data [2]).2.deploy_cell_with_data [2]).1
        = (MockChain.empty.deploy_cell_with_data [2]).1 ∧
     ((MockChain.empty.deploy_cell_with_data [2]).2.deploy_cell_with_data [2]).2
        = (MockChain.empty.deploy_cell_with_data [2]).2 ∧
     (lookupA (calcDataHash [2]) MockChain.empty.cells_by_data_hash = none →
       (MockChain.empty.deploy_cell_with_data [2]).2.cells.length
         = MockChain.empty.cells.length + 1)) :=
  ⟨by decide, deploy_idempotent_amended MockChain.empty [2] (by decide)⟩

/- Claim C2 -/

/-- Claim C2, counterexample: `create_cell_with_outpoint` — one of the store
operations the claim quantifies over — inserts unconditionally, so (i) an
already-bound reference is rebound to a different cell, and (ii) after a
deploy of content `[3]`, a later `create_cell` with the same content overwrites
the data-hash index entry, so the hash no longer maps to the first deploying
reference. -/
def rebindOp : OutPoint := ⟨5, 0⟩
def rebindCellA : CellOutput := ⟨1, Script.defaultScript, none⟩
def rebindCellB : CellOutput := ⟨2, Script.defaultScript, none⟩
def rebindChain1 : MockChain :=
  MockChain.empty.create_cell_with_outpoint rebindOp rebindCellA [1]
def rebindChain2 : MockChain :=
  rebindChain1.create_cell_with_outpoint rebindOp rebindCellB [1]
def firstWinsChain : MockChain := (MockChain.empty.deploy_cell_with_data [3]).2
def firstWinsChain2 : MockChain :=
  (firstWinsChain.create_cell ⟨7, Script.defaultScript, none⟩ [3]).2

theorem store_rebind_counterexample :
    lookupA rebindOp rebindChain1.cells = some (rebindCellA, [1]) ∧
    lookupA rebindOp rebindChain2.cells = some (rebindCellB, [1]) ∧
    rebindCellA ≠ rebindCellB ∧
    lookupA (calcDataHash [3]) firstWinsChain.cells_by_data_hash
        = some (⟨0, 0⟩ : OutPoint) ∧
    lookupA (calcDataHash [3]) firstWinsChain2.cells_by_data_hash
        = some (⟨1, 0⟩ : OutPoint) := by decide

/-- Claim C2 (amended): restricted to the content-addressed deploy operations
(`deploy_cell_with_data`, `deploy_cell_output`), the claim holds on every
well-formed store: a reference bound in the primary store is never rebound, and
every data-hash index entry keeps mapping to the reference that first deployed
that content. The restriction is forced by the counterexample:
`create_cell_with_outpoint` (and operations built on it, including `create_cell`
and `receive_tx`) insert unconditionally into both the primary store and the
data-hash index. -/
theorem deploy_ops_no_rebind (c : MockChain) (ops : List DeployOp) (hwf : c.WF) :
    (∀ r cd, lookupA r c.cells = some cd →
        lookupA r (applyDeploys c ops).cells = some cd) ∧
    (∀ h r, lookupA h c.cells_by_data_hash = some r →
        lookupA h (applyDeploys c ops).cells_by_data_hash = some r) := by
  induction ops generalizing c with
  | nil => simp [applyDeploys]
  | cons op t ih =>
      obtain ⟨ih1, ih2⟩ := ih (applyDeploy c op) (applyDeploy_wf c op hwf)
      constructor
      · intro r cd hr
        exact ih1 r cd (applyDeploy_preserves_cell c op r cd hwf hr)
      · intro h r hr
        exact ih2 h r (applyDeploy_preserves_index c op h r hr)

theorem deploy_ops_no_rebind_witness :
    MockChain.WF growthChain ∧
    ((∀ r cd, lookupA r growthChain.cells = some cd →
        lookupA r (applyDeploys growthChain [DeployOp.withData [1], DeployOp.withData [4]]).cells
          = some cd) ∧
     (∀ h r, lookupA h growthChain.cells_by_data_hash = some r →
        lookupA h (applyDeploys growthChain
            [DeployOp.withData [1], DeployOp.withData [4]]).cells_by_data_hash = some r)) :=
  ⟨by decide,
   deploy_ops_no_rebind growthChain [DeployOp.withData [1], DeployOp.withData [4]] (by decide)⟩

/- Transactions and resolution. -/

inductive DepType
  | code
  | depGroup
deriving DecidableEq, Repr

structure CellDep where
  outPoint : OutPoint
  depType : DepType
deriving DecidableEq, Repr

/-- A transaction view: inputs are the previous outpoints of the `CellInput`s,
outputs are paired with their data (`outputs_with_data`). -/
structure Transaction where
  inputs : List OutPoint
  outputs : List CellOutputWithData
  cellDeps : List CellDep
deriving DecidableEq, Repr

/-- A resolved cell (`CellMeta` built by `CellMetaBuilder::from_cell_output`,
optionally with `transaction_info`). -/
structure CellMeta where
  cellOutput : CellOutput
  data : Bytes
  outPoint : OutPoint
  transactionInfo : Option TransactionInfo
deriving DecidableEq, Repr

structure ResolvedTransaction where
  transaction : Transaction
  resolvedCellDeps : List CellMeta
  resolvedInputs : List CellMeta
  resolvedDepGroups : List CellMeta
deriving DecidableEq, Repr

/-- Effectful map over a list in the `Except` monad, failing at the first
error, written out explicitly for easy induction. -/
def exMapM {α β : Type} (f : α → Except String β) : List α → Except String (List β)
  | [] => Except.ok []
  | a :: t =>
      match f a with
      | Except.error e => Except.error e
      | Except.ok b =>
          match exMapM f t with
          | Except.error e => Except.error e
          | Except.ok bs => Except.ok (b :: bs)

def exceptIsOk {α : Type} : Except String α → Bool
  | Except.ok _ => true
  | Except.error _ => false

theorem exMapM_isOk {α β : Type} (f : α → Except String β) (l : List α) :
    exceptIsOk (exMapM f l) = true ↔ ∀ a ∈ l, exceptIsOk (f a) = true := by
  induction l with
  | nil => simp [exMapM, exceptIsOk]
  | cons a t ih =>
      cases hfa : f a with
      | error e => simp [exMapM, hfa, exceptIsOk]
      | ok b =>
          cases hmt : exMapM f t with
          | error e =>
              rw [hmt] at ih
              simp only [exMapM, hfa, hmt, List.forall_mem_cons]
              simp only [exceptIsOk] at ih ⊢
              simp [hfa, exceptIsOk, ← ih]
          | ok bs =>
              rw [hmt] at ih
              simp only [exMapM, hfa, hmt, List.forall_mem_cons]
              simp only [exceptIsOk] at ih ⊢
              simp [hfa, exceptIsOk, ← ih]

/-- One resolution step of `build_resolved_tx`: look the outpoint up in the
store (the source `unwrap`s, so a miss is a panic) and attach location metadata
from `outpoint_txs` when available. -/
def MockChain.resolveOutPoint (c : MockChain) (op : OutPoint) : Except String CellMeta :=
  match lookupA op c.cells with
  | none => Except.error unwrapMsg
  | some cd => Except.ok ⟨cd.1, cd.2, op, lookupA op c.outpoint_txs⟩

theorem resolveOutPoint_isOk (c : MockChain) (op : OutPoint) :
    exceptIsOk (c.resolveOutPoint op) = true ↔ (lookupA op c.cells).isSome = true := by
  cases h : lookupA op c.cells <;> simp [MockChain.resolveOutPoint, h, exceptIsOk]

/-- `MockChain::build_resolved_tx` (mod.rs lines 316-359): inputs are resolved
first (in input order), then the cell dependencies. -/
def MockChain.build_resolved_tx (c : MockChain) (tx : Transaction) :
    Except String ResolvedTransaction :=
  match exMapM c.resolveOutPoint tx.inputs with
  | Except.error e => Except.error e
  | Except.ok input_cells =>
      match exMapM (fun d => c.resolveOutPoint d.outPoint) tx.cellDeps with
      | Except.error e => Except.error e
      | Except.ok resolved_cell_deps =>
          Except.ok ⟨tx, resolved_cell_deps, input_cells, []⟩

theorem resolve_list_spec {α : Type} (c : MockChain) (proj : α → OutPoint)
    (l : List α) (ms : List CellMeta)
    (h : exMapM (fun a => c.resolveOutPoint (proj a)) l = Except.ok ms) :
    ms.map CellMeta.outPoint = l.map proj ∧
    ∀ m ∈ ms, lookupA m.outPoint c.cells = some (m.cellOutput, m.data) ∧
      m.transactionInfo = lookupA m.outPoint c.outpoint_txs := by
  induction l generalizing ms with
  | nil =>
      simp only [exMapM] at h
      injection h with h2
      subst h2
      simp
  | cons a t ih =>
      cases hfa : MockChain.resolveOutPoint c (proj a) with
      | error e =>
          simp only [exMapM, hfa] at h
          exact Except.noConfusion h
      | ok b =>
          cases hmt : exMapM (fun x => MockChain.resolveOutPoint c (proj x)) t with
          | error e =>
              simp only [exMapM, hfa, hmt] at h
              exact Except.noConfusion h
          | ok bs =>
              simp only [exMapM, hfa, hmt] at h
              injection h with h2
              subst h2
              obtain ⟨ih1, ih2⟩ := ih bs hmt
              cases hla : lookupA (proj a) c.cells with
              | none => simp [MockChain.resolveOutPoint, hla] at hfa
              | some cd =>
                  simp only [MockChain.resolveOutPoint, hla] at hfa
                  injection hfa with h3
                  constructor
                  · simp [List.map_cons, ih1, ← h3]
                  · intro m hm
                    rcases List.mem_cons.mp hm with h4 | h4
                    · subst h4
                      rw [← h3]
                      exact ⟨by simp [hla], by simp⟩
                    · exact ih2 m h4

/- Claim C3 -/

/-- Claim C3, counterexample: the source fails a resolution miss by `unwrap`
panic, whose value is one fixed message. Two transactions whose (unique) missing
input references differ produce identical failures, so the failure cannot be an
`UnresolvedReference` naming the first missing reference. -/
def missTx1 : Transaction := ⟨[⟨1, 0⟩], [], []⟩
def missTx2 : Transaction := ⟨[⟨2, 0⟩], [], []⟩

theorem resolve_error_unnamed_counterexample :
    MockChain.empty.build_resolved_tx missTx1 = Except.error unwrapMsg ∧
    MockChain.empty.build_resolved_tx missTx2 = Except.error unwrapMsg ∧
    missTx1.inputs ≠ missTx2.inputs := by decide

/-- Claim C3 (amended): `build_resolved_tx` succeeds iff every input and every
cell-dependency reference exists in the store at call time; on success it
returns exactly one materialized cell per declared input and per dependency, in
declaration order, with location metadata attached when available. On a miss it
fails (the source panics on `unwrap`, inputs first, in input order), but the
failure is a constant panic message, not an `UnresolvedReference` carrying the
missing reference. -/
theorem build_resolved_tx_complete (c : MockChain) (tx : Transaction) :
    (exceptIsOk (c.build_resolved_tx tx) = true ↔
      ((∀ op ∈ tx.inputs, (lookupA op c.cells).isSome = true) ∧
       (∀ d ∈ tx.cellDeps, (lookupA d.outPoint c.cells).isSome = true))) ∧
    (∀ rt, c.build_resolved_tx tx = Except.ok rt →
      rt.transaction = tx ∧
      rt.resolvedInputs.map CellMeta.outPoint = tx.inputs ∧
      rt.resolvedCellDeps.map CellMeta.outPoint = tx.cellDeps.map CellDep.outPoint ∧
      rt.resolvedDepGroups = [] ∧
      (∀ m ∈ rt.resolvedInputs,
          lookupA m.outPoint c.cells = some (m.cellOutput, m.data) ∧
          m.transactionInfo = lookupA m.outPoint c.outpoint_txs) ∧
      (∀ m ∈ rt.resolvedCellDeps,
          lookupA m.outPoint c.cells = some (m.cellOutput, m.data) ∧
          m.transactionInfo = lookupA m.outPoint c.outpoint_txs)) := by
  constructor
  · cases h1 : exMapM c.resolveOutPoint tx.inputs with
    | error e =>
        simp only [MockChain.build_resolved_tx, h1]
        have : ¬ ∀ op ∈ tx.inputs, exceptIsOk (c.resolveOutPoint op) = true := by
          rw [← exMapM_isOk, h1]
          simp [exceptIsOk]
        constructor
        · intro hfalse
          exact absurd hfalse (by simp [exceptIsOk])
        · intro hall
          refine absurd (fun op hop => ?_) this
          rw [resolveOutPoint_isOk]
          exact hall.1 op hop
    | ok input_cells =>
        have hin : ∀ op ∈ tx.inputs, (lookupA op c.cells).isSome = true := by
          intro op hop
          rw [← resolveOutPoint_isOk]
          exact (exMapM_isOk c.resolveOutPoint tx.inputs).mp (by rw [h1]; rfl) op hop
        cases h2 : exMapM (fun d => c.resolveOutPoint d.outPoint) tx.cellDeps with
        | error e =>
            simp only [MockChain.build_resolved_tx, h1, h2]
            have hdep : ¬ ∀ d ∈ tx.cellDeps, exceptIsOk (c.resolveOutPoint d.outPoint) = true := by
              rw [← exMapM_isOk, h2]
              simp [exceptIsOk]
            constructor
            · intro hfalse
              exact absurd hfalse (by simp [exceptIsOk])
            · intro hall
              refine absurd (fun d hd => ?_) hdep
              rw [resolveOutPoint_isOk]
              exact hall.2 d hd
        | ok resolved_cell_deps =>
            simp only [MockChain.build_resolved_tx, h1, h2]
            have hdep : ∀ d ∈ tx.cellDeps, (lookupA d.outPoint c.cells).isSome = true := by
              intro d hd
              rw [← resolveOutPoint_isOk]
              exact (exMapM_isOk (fun d => c.resolveOutPoint d.outPoint) tx.cellDeps).mp
                (by rw [h2]; rfl) d hd
            simp only [exceptIsOk]
            exact ⟨fun _ => ⟨hin, hdep⟩, fun _ => trivial⟩
  · intro rt hrt
    cases h1 : exMapM c.resolveOutPoint tx.inputs with
    | error e => simp [MockChain.build_resolved_tx, h1] at hrt
    | ok input_cells =>
        cases h2 : exMapM (fun d => c.resolveOutPoint d.outPoint) tx.cellDeps with
        | error e => simp [MockChain.build_resolved_tx, h1, h2] at hrt
        | ok resolved_cell_deps =>
            simp only [MockChain.build_resolved_tx, h1, h2] at hrt
            injection hrt with h3
            subst h3
            have hspec1 := resolve_list_spec c (fun op => op) tx.inputs input_cells h1
            have hspec2 := resolve_list_spec c CellDep.outPoint tx.cellDeps resolved_cell_deps h2
            refine ⟨rfl, ?_, hspec2.1, rfl, hspec1.2, hspec2.2⟩
            simpa using hspec1.1

theorem build_resolved_tx_complete_witness :
    exceptIsOk (growthChain.build_resolved_tx (⟨[⟨0, 0⟩], [], []⟩ : Transaction)) = true :=
  (build_resolved_tx_complete growthChain ⟨[⟨0, 0⟩], [], []⟩).1.mpr (by decide)

/- Dependency completion. -/

/-- Ordered de-duplication keeping the first occurrence, modelling the
`LinkedHashSet` accumulation in `complete_tx`. -/
def dedupFirstAux {α : Type} [DecidableEq α] : List α → List α → List α
  | _, [] => []
  | seen, d :: t =>
      if d ∈ seen then dedupFirstAux seen t else d :: dedupFirstAux (d :: seen) t

theorem mem_dedupFirstAux {α : Type} [DecidableEq α] (seen l : List α) (x : α) :
    x ∈ dedupFirstAux seen l ↔ x ∈ l ∧ x ∉ seen := by
  induction l generalizing seen with
  | nil => simp [dedupFirstAux]
  | cons d t ih =>
      by_cases hd : d ∈ seen
      · simp only [dedupFirstAux, if_pos hd, ih, List.mem_cons]
        constructor
        · exact fun h => ⟨Or.inr h.1, h.2⟩
        · rintro ⟨h1 | h1, h2⟩
          · subst h1
            exact absurd hd h2
          · exact ⟨h1, h2⟩
      · simp only [dedupFirstAux, if_neg hd, List.mem_cons, ih]
        constructor
        · rintro (h1 | ⟨h1, h2⟩)
          · exact ⟨Or.inl h1, by rw [h1]; exact hd⟩
          · refine ⟨Or.inr h1, fun hs => h2 (Or.inr hs)⟩
        · rintro ⟨h1 | h1, h2⟩
          · exact Or.inl h1
          · by_cases hx : x = d
            · exact Or.inl hx
            · refine Or.inr ⟨h1, fun hs => ?_⟩
              rcases hs with h3 | h3
              · exact hx h3
              · exact h2 h3

theorem nodup_dedupFirstAux {α : Type} [DecidableEq α] (seen l : List α) :
    (dedupFirstAux seen l).Nodup := by
  induction l generalizing seen with
  | nil => simp [dedupFirstAux]
  | cons d t ih =>
      by_cases hd : d ∈ seen
      · simpa [dedupFirstAux, hd] using ih seen
      · simp only [dedupFirstAux, if_neg hd]
        refine List.nodup_cons.mpr ⟨?_, ih (d :: seen)⟩
        rw [mem_dedupFirstAux]
        simp

theorem sublist_dedupFirstAux {α : Type} [DecidableEq α] (seen l : List α) :
    (dedupFirstAux seen l).Sublist l := by
  induction l generalizing seen with
  | nil => simp [dedupFirstAux]
  | cons d t ih =>
      by_cases hd : d ∈ seen
      · simp only [dedupFirstAux, if_pos hd]
        exact (ih seen).cons d
      · simp only [dedupFirstAux, if_neg hd]
        exact (ih (d :: seen)).cons₂ d

/-- `MockChain::complete_tx` (mod.rs lines 276-314): the only live code inserts
the pre-existing cell deps into a `LinkedHashSet` (ordered, de-duplicating) and
rebuilds the transaction from it; the blocks that would add code dependencies
for input/output scripts are commented out in the source. The chain argument is
unused by the live code. -/
def MockChain.complete_tx (_c : MockChain) (tx : Transaction) : Transaction :=
  { tx with cellDeps := dedupFirstAux [] tx.cellDeps }

/-- `MockChain::find_cell_dep_for_script` (mod.rs lines 255-274); both failure
arms are panics in the source. -/
def MockChain.find_cell_dep_for_script (c : MockChain) (script : Script) :
    Except String CellDep :=
  if script.hashType = ScriptHashType.data ∨ script.hashType = ScriptHashType.data1 then
    match lookupA script.codeHash c.cells_by_data_hash with
    | some out_point => Except.ok ⟨out_point, DepType.code⟩
    | none => Except.error "Cannot find contract out point with data_hash"
  else Except.error "do not support hash_type yet"

/- Claim C6 -/

/-- Claim C6, counterexample: a transaction with an output locked by a
content-hash-addressed script whose deploying cell exists in the store (and is
found by `find_cell_dep_for_script`), yet `complete_tx` adds no code
dependency: the completion logic is commented out in the source, so the
dependency list stays empty. -/
def depChain : MockChain := (MockChain.empty.deploy_cell_with_data [9]).2
def depScript : Script := ⟨calcDataHash [9], ScriptHashType.data1, []⟩
def depTx : Transaction := ⟨[], [(⟨50, depScript, none⟩, [])], []⟩

theorem complete_tx_no_code_dep_counterexample :
    (depChain.complete_tx depTx).cellDeps = [] ∧
    depChain.get_cell_by_data_hash (calcDataHash [9]) = some ⟨0, 0⟩ ∧
    depChain.find_cell_dep_for_script depScript = Except.ok ⟨⟨0, 0⟩, DepType.code⟩ := by
  decide

/-- Claim C6 (amended): `complete_tx` returns a transaction whose
cell-dependency list contains exactly the pre-existing explicit dependencies,
de-duplicated preserving first-seen order (no dependency is dropped, none is
duplicated, order is a sublist of the original); it does not add code
dependencies for scripts on inputs or outputs — that logic is commented out in
the source. Inputs and outputs are unchanged. -/
theorem complete_tx_dedup_preserves (c : MockChain) (tx : Transaction) :
    (c.complete_tx tx).cellDeps.Nodup ∧
    (∀ d, d ∈ (c.complete_tx tx).cellDeps ↔ d ∈ tx.cellDeps) ∧
    (c.complete_tx tx).cellDeps.Sublist tx.cellDeps ∧
    (c.complete_tx tx).inputs = tx.inputs ∧
    (c.complete_tx tx).outputs = tx.outputs := by
  refine ⟨nodup_dedupFirstAux [] tx.cellDeps, ?_, sublist_dedupFirstAux [] tx.cellDeps, rfl, rfl⟩
  intro d
  rw [MockChain.complete_tx]
  simp [mem_dedupFirstAux]

def dupDepTx : Transaction :=
  ⟨[], [], [⟨⟨1, 0⟩, DepType.code⟩, ⟨⟨2, 0⟩, DepType.code⟩, ⟨⟨1, 0⟩, DepType.code⟩]⟩

theorem complete_tx_dedup_preserves_witness :
    (MockChain.empty.complete_tx dupDepTx).cellDeps.Nodup :=
  (complete_tx_dedup_preserves MockChain.empty dupDepTx).1

/- Cell queries and the query provider
   (src/sdk/src/contract/generator/mod.rs lines 62-88,
    src/sdk/src/chain/mock_chain/mod.rs lines 536-611). -/

/-- `CellQueryAttribute`. The `dataHash` variant appears in the provider's
match in mock_chain/mod.rs line 600 although the enum declaration in
generator/mod.rs omits it; the embedding takes the union. -/
inductive CellQueryAttribute
  | lockHash (h : Hash)
  | lockScript (s : Script)
  | typeScript (s : Script)
  | minCapacity (c : Nat)
  | maxCapacity (c : Nat)
  | dataHash (h : Hash)
deriving DecidableEq, Repr

inductive QueryStatement
  | single (a : CellQueryAttribute)
  | filterFrom (a b : CellQueryAttribute)
  | anyOf (l : List CellQueryAttribute)
  | allOf (l : List CellQueryAttribute)
deriving DecidableEq, Repr

structure CellQuery where
  statement : QueryStatement
  limit : Nat
deriving DecidableEq, Repr

/-- `MockChainTxProvider::query` (mock_chain/mod.rs lines 557-610). Every arm
either returns `Some(list)` or panics: index misses hit `unwrap()` on `None`,
and capacity or compound statements hit explicit `panic!`s (their messages are
kept verbatim, including the source's typo). -/
def MockChain.query (c : MockChain) (q : CellQuery) :
    Except String (Option (List OutPoint)) :=
  match q.statement with
  | QueryStatement.single (CellQueryAttribute.lockHash h) =>
      match c.get_cells_by_lock_hash h with
      | some cells => Except.ok (some cells)
      | none => Except.error unwrapMsg
  | QueryStatement.single (CellQueryAttribute.lockScript s) =>
      match c.get_cells_by_lock_hash (calcScriptHash s) with
      | some cells => Except.ok (some cells)
      | none => Except.error unwrapMsg
  | QueryStatement.single (CellQueryAttribute.typeScript s) =>
      match c.get_cells_by_type_hash (calcScriptHash s) with
      | some cells => Except.ok (some cells)
      | none => Except.error unwrapMsg
  | QueryStatement.single (CellQueryAttribute.dataHash h) =>
      match c.get_cell_by_data_hash h with
      | some op => Except.ok (some [op])
      | none => Except.error unwrapMsg
  | QueryStatement.single _ =>
      Except.error "Capacity based queries currently unsupported!"
  | _ => Except.error "Compund queries currently unsupported!"

/-- `MockChainTxProvider::query_cell_meta` (mock_chain/mod.rs lines 537-556):
materializes each outpoint returned by `query` through `get_cell(..).unwrap()`,
without transaction info. -/
def MockChain.query_cell_meta (c : MockChain) (q : CellQuery) :
    Except String (Option (List CellMeta)) :=
  match c.query q with
  | Except.error e => Except.error e
  | Except.ok none => Except.ok none
  | Except.ok (some ops) =>
      match exMapM (fun op =>
          match c.get_cell op with
          | some cd => Except.ok (⟨cd.1, cd.2, op, none⟩ : CellMeta)
          | none => Except.error unwrapMsg) ops with
      | Except.error e => Except.error e
      | Except.ok metas => Except.ok (some metas)

/-- The success condition of `MockChain.query`: a supported single-attribute
statement whose hash is present in the corresponding index. -/
def querySupportedHit (c : MockChain) (q : CellQuery) : Bool :=
  match q.statement with
  | QueryStatement.single (CellQueryAttribute.lockHash h) =>
      (c.get_cells_by_lock_hash h).isSome
  | QueryStatement.single (CellQueryAttribute.lockScript s) =>
      (c.get_cells_by_lock_hash (calcScriptHash s)).isSome
  | QueryStatement.single (CellQueryAttribute.typeScript s) =>
      (c.get_cells_by_type_hash (calcScriptHash s)).isSome
  | QueryStatement.single (CellQueryAttribute.dataHash h) =>
      (c.get_cell_by_data_hash h).isSome
  | _ => false

/- Claim C9 -/

/-- Claim C9, counterexample: a capacity-range query makes the provider abort
with a panic instead of returning a list or absent, and on the empty chain even
a supported lock-hash query aborts on the index `unwrap`; compound statements
abort as well. -/
theorem query_aborts_counterexample :
    MockChain.empty.query ⟨QueryStatement.single (CellQueryAttribute.minCapacity 0), 1⟩
        = Except.error "Capacity based queries currently unsupported!" ∧
    MockChain.empty.query ⟨QueryStatement.anyOf [], 1⟩
        = Except.error "Compund queries currently unsupported!" ∧
    MockChain.empty.query ⟨QueryStatement.single (CellQueryAttribute.lockHash 5), 1⟩
        = Except.error unwrapMsg := by decide

/-- Claim C9 (amended): the provider's `query` succeeds exactly on supported
single-attribute statements (lock-hash, lock-script, type-script, data-hash)
whose hash is present in the corresponding index, returning an ordered
reference list; in every other case — capacity-range attributes, compound
statements, or a hash absent from the index — it aborts (panics) rather than
returning, and neither `query` nor `query_cell_meta` ever returns the absent
value. -/
theorem query_never_absent (c : MockChain) (q : CellQuery) :
    (exceptIsOk (c.query q) = true ↔ querySupportedHit c q = true) ∧
    c.query q ≠ Except.ok none ∧
    c.query_cell_meta q ≠ Except.ok none := by
  refine ⟨?_, ?_, ?_⟩
  · cases q with
    | mk st lim =>
        cases st with
        | single a =>
            cases a with
            | lockHash h =>
                cases hl : c.get_cells_by_lock_hash h <;>
                  simp [MockChain.query, querySupportedHit, hl, exceptIsOk]
            | lockScript s =>
                cases hl : c.get_cells_by_lock_hash (calcScriptHash s) <;>
                  simp [MockChain.query, querySupportedHit, hl, exceptIsOk]
            | typeScript s =>
                cases hl : c.get_cells_by_type_hash (calcScriptHash s) <;>
                  simp [MockChain.query, querySupportedHit, hl, exceptIsOk]
            | dataHash h =>
                cases hl : c.get_cell_by_data_hash h <;>
                  simp [MockChain.query, querySupportedHit, hl, exceptIsOk]
            | minCapacity cap => simp [MockChain.query, querySupportedHit, exceptIsOk]
            | maxCapacity cap => simp [MockChain.query, querySupportedHit, exceptIsOk]
        | filterFrom a b => simp [MockChain.query, querySupportedHit, exceptIsOk]
        | anyOf l => simp [MockChain.query, querySupportedHit, exceptIsOk]
        | allOf l => simp [MockChain.query, querySupportedHit, exceptIsOk]
  · cases q with
    | mk st lim =>
        cases st with
        | single a =>
            cases a with
            | lockHash h =>
                cases hl : c.get_cells_by_lock_hash h <;> simp [MockChain.query, hl]
            | lockScript s =>
                cases hl : c.get_cells_by_lock_hash (calcScriptHash s) <;>
                  simp [MockChain.query, hl]
            | typeScript s =>
                cases hl : c.get_cells_by_type_hash (calcScriptHash s) <;>
                  simp [MockChain.query, hl]
            | dataHash h =>
                cases hl : c.get_cell_by_data_hash h <;> simp [MockChain.query, hl]
            | minCapacity cap => simp [MockChain.query]
            | maxCapacity cap => simp [MockChain.query]
        | filterFrom a b => simp [MockChain.query]
        | anyOf l => simp [MockChain.query]
        | allOf l => simp [MockChain.query]
  · cases hq : c.query q with
    | error e => simp [MockChain.query_cell_meta, hq]
    | ok o =>
        cases o with
        | none =>
            intro _
            have h2 : c.query q ≠ Except.ok none := by
              cases q with
              | mk st lim =>
                  cases st with
                  | single a =>
                      cases a with
                      | lockHash h =>
                          cases hl : c.get_cells_by_lock_hash h <;>
                            simp [MockChain.query, hl]
                      | lockScript s =>
                          cases hl : c.get_cells_by_lock_hash (calcScriptHash s) <;>
                            simp [MockChain.query, hl]
                      | typeScript s =>
                          cases hl : c.get_cells_by_type_hash (calcScriptHash s) <;>
                            simp [MockChain.query, hl]
                      | dataHash h =>
                          cases hl : c.get_cell_by_data_hash h <;>
                            simp [MockChain.query, hl]
                      | minCapacity cap => simp [MockChain.query]
                      | maxCapacity cap => simp [MockChain.query]
                  | filterFrom a b => simp [MockChain.query]
                  | anyOf l => simp [MockChain.query]
                  | allOf l => simp [MockChain.query]
            exact h2 hq
        | some ops =>
            cases hm : exMapM (fun op =>
                match c.get_cell op with
                | some cd => Except.ok (⟨cd.1, cd.2, op, none⟩ : CellMeta)
                | none => Except.error unwrapMsg) ops with
            | error e => simp [MockChain.query_cell_meta, hq, hm]
            | ok metas => simp [MockChain.query_cell_meta, hq, hm]

theorem query_never_absent_witness :
    exceptIsOk (MockChain.empty.query
        ⟨QueryStatement.single (CellQueryAttribute.lockHash 5), 1⟩) = true
      ↔ querySupportedHit MockChain.empty
          ⟨QueryStatement.single (CellQueryAttribute.lockHash 5), 1⟩ = true :=
  (query_never_absent MockChain.empty
    ⟨QueryStatement.single (CellQueryAttribute.lockHash 5), 1⟩).1

/- Generator and middleware pipeline (src/sdk/src/contract/generator/mod.rs). -/

/-- `CellMetaTransaction`: a transaction view plus the resolved input metas. -/
structure CellMetaTransaction where
  tx : Transaction
  inputs : List CellMeta
deriving DecidableEq, Repr

/-- The `GeneratorMiddleware` trait: `pipe` may transform the transaction and
push further queries onto the shared registry (modelled by returning the new
registry contents); `updateQueryRegister` only pushes queries. `pipe` may panic
in implementations, hence the `Except`. -/
structure Middleware where
  pipe : CellMetaTransaction → List CellQuery →
    Except String (CellMetaTransaction × List CellQuery)
  updateQueryRegister : CellMetaTransaction → List CellQuery → List CellQuery

def concatAll {α : Type} : List (List α) → List α
  | [] => []
  | l :: t => l ++ concatAll t

/-- `Generator::update_query_register` (generator/mod.rs lines 150-154): every
middleware, in pipeline order, appends to the shared registry. -/
def updateRegister (mws : List Middleware) (tx : CellMetaTransaction)
    (reg : List CellQuery) : List CellQuery :=
  mws.foldl (fun r m => m.updateQueryRegister tx r) reg

/-- One step of `Generator::resolve_queries`: `self.query(q).unwrap()` — the
provider is consulted and a `None` answer (or a provider panic) is a panic. -/
def resolveOne (qp : CellQuery → Except String (Option (List CellMeta)))
    (q : CellQuery) : Except String (List CellMeta) :=
  match qp q with
  | Except.ok (some metas) => Except.ok metas
  | Except.ok none => Except.error unwrapMsg
  | Except.error e => Except.error e

/-- `Generator::resolve_queries` (generator/mod.rs lines 138-144): flat-map of
the per-query results in registration order. -/
def resolveQueries (qp : CellQuery → Except String (Option (List CellMeta)))
    (reg : List CellQuery) : Except String (List CellMeta) :=
  match exMapM (resolveOne qp) reg with
  | Except.error e => Except.error e
  | Except.ok ls => Except.ok (concatAll ls)

/-- The middleware fold at the end of `Generator::pipe`
(generator/mod.rs lines 168-170). -/
def runPipes : List Middleware → CellMetaTransaction × List CellQuery →
    Except String (CellMetaTransaction × List CellQuery)
  | [], p => Except.ok p
  | m :: t, p =>
      match m.pipe p.1 p.2 with
      | Except.error e => Except.error e
      | Except.ok p2 => runPipes t p2

/-- `Generator::pipe` (generator/mod.rs lines 155-181): register queries, drain
them through the provider, set the concatenated results as the transaction's
inputs, then fold the middleware over the rebuilt transaction. The registry is
read but never cleared. -/
def generatorPipe (mws : List Middleware)
    (qp : CellQuery → Except String (Option (List CellMeta)))
    (tx : CellMetaTransaction) (reg : List CellQuery) :
    Except String (CellMetaTransaction × List CellQuery) :=
  let reg1 := updateRegister mws tx reg
  match resolveQueries qp reg1 with
  | Except.error e => Except.error e
  | Except.ok inputs =>
      runPipes mws (⟨{ tx.tx with inputs := inputs.map CellMeta.outPoint }, inputs⟩, reg1)

/- Contract middleware (src/sdk/src/contract/mod.rs). -/

inductive ContractCellFieldSelector
  | args
  | data
  | lockScript
  | typeScript
  | capacity
deriving DecidableEq, Repr

/-- `ContractCellField`: the typed field values handed to output rules. The
schema-typed data is modelled as its raw byte encoding (the codec boundary). -/
inductive ContractCellField
  | args (b : Bytes)
  | data (b : Bytes)
  | lockScript (s : Script)
  | typeScript (s : Script)
  | capacity (c : Nat)

/-- `Contract<A, D>`: code bytes, serialized args, ordered output rules and
ordered input rules. -/
structure Contract where
  code : Bytes
  argsVal : Bytes
  output_rules : List (ContractCellFieldSelector × (ContractCellField → ContractCellField))
  input_rules : List (Transaction → CellQuery)

/-- `Contract::as_script` (contract/mod.rs lines 213-223): code hash is the
blake2b of the code bytes, hash type Data1, args from the contract. -/
def Contract.as_script (ct : Contract) : Script :=
  ⟨calcDataHash ct.code, ScriptHashType.data1, ct.argsVal⟩

/-- `Contract::script_hash` (contract/mod.rs lines 258-261). -/
def Contract.script_hash (ct : Contract) : Hash :=
  calcScriptHash ct.as_script

/-- The match test of `Contract::pipe` (contract/mod.rs lines 334-341): an
output is the contract's own when its type-script hash or lock-script hash
equals the contract's script hash. -/
def Contract.matchesOutput (ct : Contract) (out : CellOutput) : Bool :=
  (match out.typ with
   | some t => decide (calcScriptHash t = ct.script_hash)
   | none => false)
  || decide (calcScriptHash out.lock = ct.script_hash)

/-- The `filter_map` of `Contract::pipe` (contract/mod.rs lines 330-346),
including its source index handling: `idx` is incremented only on a
non-matching output, and a matched position yields `tx.output_with_data(idx)`
(silently skipped by `filter_map` when out of range). -/
def pipeFilterGo (ct : Contract) (tx : Transaction) :
    List CellOutputWithData → Nat → List CellOutputWithData
  | [], _ => []
  | out :: rest, idx =>
      if ct.matchesOutput out.1 then
        (tx.outputs.get? idx).toList ++ pipeFilterGo ct tx rest idx
      else pipeFilterGo ct tx rest (idx + 1)

/-- The output-rules fold of `Contract::pipe` (contract/mod.rs lines 350-374):
rules run in registration order; a `Data` rule decodes the output's data,
applies the rule and re-encodes (the output is unchanged when the rule returns
a different variant); every other selector is a `todo!()` panic in the
source. -/
def applyRulesGo :
    List (ContractCellFieldSelector × (ContractCellField → ContractCellField)) →
    CellOutputWithData → Except String CellOutputWithData
  | [], out => Except.ok out
  | r :: t, out =>
      match r.1 with
      | ContractCellFieldSelector.data =>
          applyRulesGo t
            (match r.2 (ContractCellField.data out.2) with
             | ContractCellField.data nd => (out.1, nd)
             | _ => out)
      | _ => Except.error "not yet implemented"

def Contract.applyRules (ct : Contract) (out : CellOutputWithData) :
    Except String CellOutputWithData :=
  applyRulesGo ct.output_rules out

/-- `Contract::pipe`'s transaction rebuild (contract/mod.rs lines 324-395):
`set_outputs`/`set_outputs_data` replace the outputs with exactly the processed
matched outputs; inputs and cell deps are carried over unchanged. -/
def Contract.pipeTx (ct : Contract) (tx : Transaction) : Except String Transaction :=
  match exMapM ct.applyRules (pipeFilterGo ct tx tx.outputs 0) with
  | Except.error e => Except.error e
  | Except.ok processed => Except.ok { tx with outputs := processed }

/-- Modelled from the spec: the source `Contract` does not define the
`update_query_register` method even though the `GeneratorMiddleware` trait
declares it and `Generator::pipe` invokes it on every middleware before the
drain; the spec says a contract "applies ordered input-rules: pure functions
from the current transaction to a CellQuery, pushed to the registry". -/
def Contract.update_query_register (ct : Contract) (cmt : CellMetaTransaction)
    (reg : List CellQuery) : List CellQuery :=
  reg ++ ct.input_rules.map (fun rule => rule cmt.tx)

/-- A `Contract` as a `GeneratorMiddleware`: `pipe` transforms the outputs per
the source (contract/mod.rs lines 324-395) and then pushes the input-rule
queries, computed from the incoming transaction, onto the registry
(lines 377-379). -/
def Contract.toMiddleware (ct : Contract) : Middleware :=
  { pipe := fun cmt reg =>
      match ct.pipeTx cmt.tx with
      | Except.error e => Except.error e
      | Except.ok newTx =>
          Except.ok (⟨newTx, cmt.inputs⟩,
            reg ++ ct.input_rules.map (fun rule => rule cmt.tx))
    updateQueryRegister := fun cmt reg => ct.update_query_register cmt reg }

/- Helper lemmas about the pipeline. -/

theorem contract_pipeTx_frame (ct : Contract) (tx tx2 : Transaction)
    (h : ct.pipeTx tx = Except.ok tx2) :
    tx2.inputs = tx.inputs ∧ tx2.cellDeps = tx.cellDeps := by
  cases hm : exMapM ct.applyRules (pipeFilterGo ct tx tx.outputs 0) with
  | error e =>
      simp only [Contract.pipeTx, hm] at h
      exact Except.noConfusion h
  | ok processed =>
      simp only [Contract.pipeTx, hm] at h
      injection h with h2
      subst h2
      exact ⟨rfl, rfl⟩

theorem contract_toMiddleware_preserves (ct : Contract) (t : CellMetaTransaction)
    (r : List CellQuery) (out : CellMetaTransaction × List CellQuery)
    (h : ct.toMiddleware.pipe t r = Except.ok out) :
    out.1.tx.inputs = t.tx.inputs ∧ out.1.inputs = t.inputs ∧
    out.2 = r ++ ct.input_rules.map (fun rule => rule t.tx) := by
  cases hp : ct.pipeTx t.tx with
  | error e =>
      simp only [Contract.toMiddleware, hp] at h
      exact Except.noConfusion h
  | ok newTx =>
      simp only [Contract.toMiddleware, hp] at h
      injection h with h2
      subst h2
      exact ⟨(contract_pipeTx_frame ct t.tx newTx hp).1, rfl, rfl⟩

theorem runPipes_preserves_inputs (mws : List Middleware)
    (hpres : ∀ m ∈ mws, ∀ t r out, m.pipe t r = Except.ok out →
        out.1.tx.inputs = t.tx.inputs ∧ out.1.inputs = t.inputs)
    (p out : CellMetaTransaction × List CellQuery)
    (h : runPipes mws p = Except.ok out) :
    out.1.tx.inputs = p.1.tx.inputs ∧ out.1.inputs = p.1.inputs := by
  induction mws generalizing p with
  | nil =>
      simp only [runPipes] at h
      injection h with h2
      subst h2
      exact ⟨rfl, rfl⟩
  | cons m t ih =>
      cases hm : m.pipe p.1 p.2 with
      | error e =>
          simp only [runPipes, hm] at h
          exact Except.noConfusion h
      | ok p2 =>
          simp only [runPipes, hm] at h
          have h1 := hpres m (by simp) p.1 p.2 p2 hm
          have h2 := ih (fun x hx => hpres x (by simp [hx])) p2 h
          exact ⟨h2.1.trans h1.1, h2.2.trans h1.2⟩

theorem runPipes_appends (mws : List Middleware)
    (happ : ∀ m ∈ mws, ∀ t r out, m.pipe t r = Except.ok out →
        ∃ extra, out.2 = r ++ extra)
    (p out : CellMetaTransaction × List CellQuery)
    (h : runPipes mws p = Except.ok out) :
    ∃ extra, out.2 = p.2 ++ extra := by
  induction mws generalizing p with
  | nil =>
      simp only [runPipes] at h
      injection h with h2
      subst h2
      exact ⟨[], by simp⟩
  | cons m t ih =>
      cases hm : m.pipe p.1 p.2 with
      | error e =>
          simp only [runPipes, hm] at h
          exact Except.noConfusion h
      | ok p2 =>
          simp only [runPipes, hm] at h
          obtain ⟨e1, he1⟩ := happ m (by simp) p.1 p.2 p2 hm
          obtain ⟨e2, he2⟩ := ih (fun x hx => happ x (by simp [hx])) p2 h
          exact ⟨e1 ++ e2, by rw [he2, he1, List.append_assoc]⟩

/- Claim C4 -/

/-- Claim C4: in a generation pass, every registered query is resolved through
the provider in registration order, and the concatenation of the per-query
results, in that order, is exactly the transaction's input set (both the input
outpoints and the attached metas). The middleware hypothesis states that the
middleware fold does not touch inputs, which holds for every contract
middleware (`contract_toMiddleware_preserves`): contracts only transform
outputs. -/
theorem generator_inputs_from_queries (mws : List Middleware)
    (qp : CellQuery → Except String (Option (List CellMeta)))
    (tx : CellMetaTransaction) (reg : List CellQuery)
    (hpres : ∀ m ∈ mws, ∀ t r out, m.pipe t r = Except.ok out →
        out.1.tx.inputs = t.tx.inputs ∧ out.1.inputs = t.inputs)
    (txF : CellMetaTransaction) (regF : List CellQuery)
    (hok : generatorPipe mws qp tx reg = Except.ok (txF, regF)) :
    ∃ perQuery, exMapM (resolveOne qp) (updateRegister mws tx reg) = Except.ok perQuery ∧
      txF.inputs = concatAll perQuery ∧
      txF.tx.inputs = (concatAll perQuery).map CellMeta.outPoint := by
  cases hm : exMapM (resolveOne qp) (updateRegister mws tx reg) with
  | error e =>
      simp only [generatorPipe, resolveQueries, hm] at hok
      exact Except.noConfusion hok
  | ok ls =>
      simp only [generatorPipe, resolveQueries, hm] at hok
      have hrun := runPipes_preserves_inputs mws hpres _ (txF, regF) hok
      exact ⟨ls, rfl, hrun.2, hrun.1⟩

/- Scenario 2 of the spec: two contract middleware register a lock-hash query
then a type-script query, the provider has one match each. -/

def scLock : Script := ⟨10, ScriptHashType.data1, [1]⟩
def scType : Script := ⟨11, ScriptHashType.data1, [2]⟩
def scCell1 : CellOutput := ⟨100, scLock, none⟩
def scCell2 : CellOutput := ⟨200, Script.defaultScript, some scType⟩
def scChain : MockChain :=
  ((MockChain.empty.create_cell scCell1 [3]).2.create_cell scCell2 [5]).2
def scQA : CellQuery :=
  ⟨QueryStatement.single (CellQueryAttribute.lockHash (calcScriptHash scLock)), 1⟩
def scQB : CellQuery := ⟨QueryStatement.single (CellQueryAttribute.typeScript scType), 1⟩
def scContractA : Contract := ⟨[7], [], [], [fun _ => scQA]⟩
def scContractB : Contract := ⟨[8], [], [], [fun _ => scQB]⟩
def scMws : List Middleware := [scContractA.toMiddleware, scContractB.toMiddleware]
def scQp : CellQuery → Except String (Option (List CellMeta)) :=
  fun q => scChain.query_cell_meta q
def emptyCmt : CellMetaTransaction := ⟨⟨[], [], []⟩, []⟩
def scMeta1 : CellMeta := ⟨scCell1, [3], ⟨0, 0⟩, none⟩
def scMeta2 : CellMeta := ⟨scCell2, [5], ⟨1, 0⟩, none⟩
def scTxF : CellMetaTransaction := ⟨⟨[⟨0, 0⟩, ⟨1, 0⟩], [], []⟩, [scMeta1, scMeta2]⟩
def scRegF : List CellQuery := [scQA, scQB, scQA, scQB]

theorem generator_inputs_from_queries_witness :
    ∃ perQuery,
      exMapM (resolveOne scQp) (updateRegister scMws emptyCmt []) = Except.ok perQuery ∧
      scTxF.inputs = concatAll perQuery ∧
      scTxF.tx.inputs = (concatAll perQuery).map CellMeta.outPoint :=
  generator_inputs_from_queries scMws scQp emptyCmt []
    (by
      intro m hm t r out h
      rcases List.mem_cons.mp hm with h1 | h1
      · subst h1
        have h2 := contract_toMiddleware_preserves scContractA t r out h
        exact ⟨h2.1, h2.2.1⟩
      · rcases List.mem_cons.mp h1 with h2 | h2
        · subst h2
          have h3 := contract_toMiddleware_preserves scContractB t r out h
          exact ⟨h3.1, h3.2.1⟩
        · exact absurd h2 (List.not_mem_nil m))
    scTxF scRegF (by decide)

/- Claim C5 -/

/-- Claim C5, counterexample: two passes whose (distinct) registered queries
are both unsatisfiable fail with the identical constant panic value, so the
failure is not a `QueryUnsatisfied` error carrying the query: the provider and
the generator fail through `unwrap`/`panic!`, which carry no query. -/
def qU1 : CellQuery := ⟨QueryStatement.single (CellQueryAttribute.lockHash 5), 1⟩
def qU2 : CellQuery := ⟨QueryStatement.single (CellQueryAttribute.lockHash 7), 1⟩
def ctU1 : Contract := ⟨[1], [], [], [fun _ => qU1]⟩
def ctU2 : Contract := ⟨[1], [], [], [fun _ => qU2]⟩
def emptyQp : CellQuery → Except String (Option (List CellMeta)) :=
  fun q => MockChain.empty.query_cell_meta q

theorem query_error_carries_no_query :
    generatorPipe [ctU1.toMiddleware] emptyQp emptyCmt [] = Except.error unwrapMsg ∧
    generatorPipe [ctU2.toMiddleware] emptyQp emptyCmt [] = Except.error unwrapMsg ∧
    qU1 ≠ qU2 := by decide

/-- Claim C5 (amended): if any registered query cannot be satisfied by the
provider, the generation pass fails (the source panics on the `unwrap` of the
provider answer) and no transaction is produced — the partially built
transaction is discarded and, the pass being pure over the chain state, nothing
is committed. The failure is a panic carrying no query, not a
`QueryUnsatisfied(query)` error. -/
theorem query_unsatisfied_fails_pass (mws : List Middleware)
    (qp : CellQuery → Except String (Option (List CellMeta)))
    (tx : CellMetaTransaction) (reg : List CellQuery) (q : CellQuery)
    (hq : q ∈ updateRegister mws tx reg)
    (hfail : exceptIsOk (resolveOne qp q) = false) :
    ∃ e, generatorPipe mws qp tx reg = Except.error e := by
  cases hm : exMapM (resolveOne qp) (updateRegister mws tx reg) with
  | error e => exact ⟨e, by simp [generatorPipe, resolveQueries, hm]⟩
  | ok ls =>
      exfalso
      have hall := (exMapM_isOk (resolveOne qp) (updateRegister mws tx reg)).mp
        (by rw [hm]; rfl)
      rw [hall q hq] at hfail
      exact Bool.noConfusion hfail

theorem query_unsatisfied_fails_pass_witness :
    qU1 ∈ updateRegister [ctU1.toMiddleware] emptyCmt [] ∧
    exceptIsOk (resolveOne emptyQp qU1) = false ∧
    (∃ e, generatorPipe [ctU1.toMiddleware] emptyQp emptyCmt [] = Except.error e) :=
  ⟨by decide, by decide,
   query_unsatisfied_fails_pass [ctU1.toMiddleware] emptyQp emptyCmt [] qU1
     (by decide) (by decide)⟩

/- Claim C7 -/

theorem pipeFilterGo_skips_nonmatch (ct : Contract) (tx : Transaction)
    (pre rest : List CellOutputWithData) (idx : Nat)
    (hpre : ∀ p ∈ pre, ct.matchesOutput p.1 = false) :
    pipeFilterGo ct tx (pre ++ rest) idx = pipeFilterGo ct tx rest (idx + pre.length) := by
  induction pre generalizing idx with
  | nil => simp
  | cons p t ih =>
      have hp := hpre p (by simp)
      simp only [List.cons_append, pipeFilterGo, hp, Bool.false_eq_true, if_false,
        List.append_eq]
      rw [ih (idx + 1) (fun x hx => hpre x (by simp [hx]))]
      have harith : idx + 1 + t.length = idx + (t.length + 1) := by omega
      rw [harith]
      simp

theorem pipeFilterGo_nil_of_nonmatch (ct : Contract) (tx : Transaction)
    (l : List CellOutputWithData) (idx : Nat)
    (h : ∀ p ∈ l, ct.matchesOutput p.1 = false) :
    pipeFilterGo ct tx l idx = [] := by
  induction l generalizing idx with
  | nil => simp [pipeFilterGo]
  | cons p t ih =>
      have hp := h p (by simp)
      simp only [pipeFilterGo, hp, Bool.false_eq_true, if_false]
      exact ih (idx + 1) (fun x hx => h x (by simp [hx]))

theorem get?_append_cons_length {α : Type} (pre : List α) (x : α) (rest : List α) :
    (pre ++ x :: rest).get? pre.length = some x := by
  induction pre with
  | nil => rfl
  | cons p t ih => simpa using ih

theorem applyRulesGo_ok
    (rules : List (ContractCellFieldSelector × (ContractCellField → ContractCellField)))
    (hrules : ∀ r ∈ rules, r.1 = ContractCellFieldSelector.data)
    (out : CellOutputWithData) :
    ∃ res, applyRulesGo rules out = Except.ok res := by
  induction rules generalizing out with
  | nil => exact ⟨out, rfl⟩
  | cons r t ih =>
      obtain ⟨sel, f⟩ := r
      have hr : sel = ContractCellFieldSelector.data := hrules (sel, f) (by simp)
      subst hr
      simp only [applyRulesGo]
      exact ih (fun x hx => hrules x (by simp [hx])) _

/-- Claim C7, counterexample: a transaction with one output that does not match
the contract (neither lock nor type hash equals the contract's script hash)
comes out of `Contract::pipe` with an empty output list: the non-matching
output is dropped rather than appearing unchanged at its original position,
because the source rebuilds the transaction from only the matched outputs. -/
def dropCt : Contract := ⟨[4], [], [], []⟩
def dropOut : CellOutput := ⟨10, ⟨99, ScriptHashType.data1, [8]⟩, none⟩
def dropTx : Transaction := ⟨[], [(dropOut, [1])], []⟩

theorem contract_pipe_drops_unmatched_counterexample :
    dropCt.pipeTx dropTx = Except.ok ⟨[], [], []⟩ ∧
    dropCt.matchesOutput dropOut = false ∧
    dropTx.outputs.length = 1 := by decide

/-- Claim C7 (amended): when exactly one output of the transaction matches the
contract's script hash (and the rules use the supported Data selector — any
other selector is a `todo!()` panic in the source), `Contract::pipe` applies
the output rules fold-style, in registration order, to that output's own data
and leaves inputs and dependencies unchanged; but the resulting transaction
contains only that processed output — every non-matching output is dropped
rather than preserved at its original position. (With two or more matching
outputs the source additionally fetches skewed indices, since the running index
is not incremented on a match.) -/
theorem contract_pipe_unique_match (ct : Contract) (tx : Transaction)
    (pre post : List CellOutputWithData) (o : CellOutputWithData)
    (hsplit : tx.outputs = pre ++ o :: post)
    (hpre : ∀ p ∈ pre, ct.matchesOutput p.1 = false)
    (hpost : ∀ p ∈ post, ct.matchesOutput p.1 = false)
    (ho : ct.matchesOutput o.1 = true)
    (hrules : ∀ r ∈ ct.output_rules, r.1 = ContractCellFieldSelector.data) :
    ∃ processed, ct.applyRules o = Except.ok processed ∧
      ct.pipeTx tx = Except.ok { tx with outputs := [processed] } := by
  have hmatched : pipeFilterGo ct tx tx.outputs 0 = [o] := by
    conv_lhs => rw [hsplit]
    rw [pipeFilterGo_skips_nonmatch ct tx pre (o :: post) 0 hpre]
    simp only [pipeFilterGo, ho, if_true]
    rw [pipeFilterGo_nil_of_nonmatch ct tx post _ hpost]
    rw [hsplit]
    simp only [Nat.zero_add, get?_append_cons_length]
    rfl
  obtain ⟨processed, hpo⟩ := applyRulesGo_ok ct.output_rules hrules o
  have hap : ct.applyRules o = Except.ok processed := hpo
  refine ⟨processed, hap, ?_⟩
  simp only [Contract.pipeTx, hmatched, exMapM, hap]

def incRule : ContractCellField → ContractCellField :=
  fun f =>
    match f with
    | ContractCellField.data b => ContractCellField.data (b ++ [1])
    | x => x

def wCt : Contract := ⟨[4], [], [(ContractCellFieldSelector.data, incRule)], []⟩
def wOutMatch : CellOutputWithData := (⟨10, wCt.as_script, none⟩, [5])
def wOutOther : CellOutputWithData := (⟨10, ⟨99, ScriptHashType.data1, [8]⟩, none⟩, [2])
def wTx : Transaction := ⟨[], [wOutOther, wOutMatch], []⟩

theorem contract_pipe_unique_match_witness :
    wTx.outputs = [wOutOther] ++ wOutMatch :: [] ∧
    (∃ processed, wCt.applyRules wOutMatch = Except.ok processed ∧
      wCt.pipeTx wTx = Except.ok { wTx with outputs := [processed] }) :=
  ⟨by decide,
   contract_pipe_unique_match wCt wTx [wOutOther] [] wOutMatch
     (by decide)
     (by
       intro p hp
       rcases List.mem_cons.mp hp with h1 | h1
       · subst h1
         decide
       · exact absurd h1 (List.not_mem_nil p))
     (by intro p hp; exact absurd hp (List.not_mem_nil p))
     (by decide)
     (by
       intro r hr
       rcases List.mem_cons.mp hr with h1 | h1
       · rw [h1]
       · exact absurd h1 (List.not_mem_nil r))⟩

/- Claim C8 -/

/-- Claim C8, counterexample: a pass with one contract middleware whose single
(satisfiable) input-rule query is registered, drained, then pushed again by the
contract's pipe: when `Generator::pipe` returns, the registry holds the query
twice — it is read but never cleared, so it is not empty and does not start
empty for the next pass. -/
def scTxF8 : CellMetaTransaction := ⟨⟨[⟨0, 0⟩], [], []⟩, [scMeta1]⟩

theorem registry_not_cleared_counterexample :
    generatorPipe [scContractA.toMiddleware] scQp emptyCmt []
        = Except.ok (scTxF8, [scQA, scQA]) ∧
    ([scQA, scQA] : List CellQuery) ≠ [] := by decide

/-- Claim C8 (amended): `Generator::pipe` reads the registry once, before the
middleware fold, and never clears it: on success, the final registry is the
registered queries followed by whatever the middleware pushed during the fold
(contract middleware re-push their input-rule queries there, unresolved in this
pass); in particular every registered query is still in the registry when the
pass returns, so the registry does not start empty for the next pass. The
middleware hypothesis (the fold only appends to the registry) holds for every
contract middleware. -/
theorem registry_retains_queries (mws : List Middleware)
    (qp : CellQuery → Except String (Option (List CellMeta)))
    (tx : CellMetaTransaction) (reg : List CellQuery)
    (happ : ∀ m ∈ mws, ∀ t r out, m.pipe t r = Except.ok out →
        ∃ extra, out.2 = r ++ extra)
    (txF : CellMetaTransaction) (regF : List CellQuery)
    (hok : generatorPipe mws qp tx reg = Except.ok (txF, regF)) :
    ∃ extra, regF = updateRegister mws tx reg ++ extra := by
  cases hm : exMapM (resolveOne qp) (updateRegister mws tx reg) with
  | error e =>
      simp only [generatorPipe, resolveQueries, hm] at hok
      exact Except.noConfusion hok
  | ok ls =>
      simp only [generatorPipe, resolveQueries, hm] at hok
      exact runPipes_appends mws happ _ (txF, regF) hok

theorem registry_retains_queries_witness :
    ∃ extra, [scQA, scQA] = updateRegister [scContractA.toMiddleware] emptyCmt [] ++ extra :=
  registry_retains_queries [scContractA.toMiddleware] scQp emptyCmt []
    (by
      intro m hm t r out h
      rcases List.mem_cons.mp hm with h1 | h1
      · subst h1
        exact ⟨_, (contract_toMiddleware_preserves scContractA t r out h).2.2⟩
      · exact absurd h1 (List.not_mem_nil m))
    scTxF8 [scQA, scQA] (by decide)

/- Claim C10 -/

/-- Claim C10: a default-constructed `MockChain` is not empty: it has deployed
the always-success code blob through `deploy_cell_with_data` and recorded the
resulting reference as the default lock, so `get_default_script_outpoint`
succeeds and `get_cell` of that reference returns the code cell wrapping the
blob, with capacity equal to the blob's byte length. The blob is the external
static binary, hence a parameter. -/
theorem default_chain_deploys_always_success (blob : Bytes) :
    (MockChain.mkDefault blob).get_default_script_outpoint = Except.ok ⟨0, 0⟩ ∧
    (MockChain.mkDefault blob).get_cell ⟨0, 0⟩ =
      some (⟨blob.length, Script.defaultScript,
             some ⟨calcDataHash blob, ScriptHashType.data, []⟩⟩, blob) ∧
    (MockChain.mkDefault blob).cells.length = 1 := by
  refine ⟨rfl, ?_, rfl⟩
  simp [MockChain.mkDefault, MockChain.empty, MockChain.deploy_cell_with_data,
    MockChain.get_cell, lookupA, insertA]

theorem default_chain_deploys_always_success_witness :
    (MockChain.mkDefault [0, 1]).get_default_script_outpoint = Except.ok ⟨0, 0⟩ ∧
    (MockChain.mkDefault [0, 1]).get_cell ⟨0, 0⟩ =
      some (⟨([0, 1] : Bytes).length, Script.defaultScript,
             some ⟨calcDataHash [0, 1], ScriptHashType.data, []⟩⟩, [0, 1]) ∧
    (MockChain.mkDefault [0, 1]).cells.length = 1 :=
  default_chain_deploys_always_success [0, 1]

end Trampoline
